import Mathlib

/-!
# Verification of the booking-slot availability engine

Shallow embedding of `dog_grooming_app/utils.py`: the functions
`get_booked_time_slots` and `get_available_booking_slots` (the availability
calculator), over times-of-day represented as seconds since midnight
(`Nat`, always reduced modulo 86400 by the combine-add-extract idiom) and
durations as seconds (`Nat`; the Python code builds them from whole minutes,
but nothing in the logic depends on that).

The Python `while` loop is embedded as a fuel-indexed recursion
(`availLoop`): `some l` means the loop genuinely finished with result `l`
before the fuel ran out, `none` means the fuel was exhausted while the loop
condition still held.  A run of the Python function terminating with value
`l` corresponds exactly to `availLoop … fuel cur = some l` for every
sufficiently large `fuel`.
-/

namespace DogGrooming

/-- Seconds in a day; `datetime.time` arithmetic is modulo this. -/
def secondsPerDay : Nat := 86400

/-- The combine-add-extract idiom of the source:
`(datetime.datetime.combine(day, t) + delta).time()` adds a duration to a
time-of-day and silently wraps past midnight. -/
def addTime (t d : Nat) : Nat := (t + d) % secondsPerDay

/-- Two-digit zero padding, as produced by `strftime` field formatting. -/
def pad2 (n : Nat) : String := if n < 10 then "0" ++ toString n else toString n

/-- `datetime.time.strftime(t, '%H:%M')`. -/
def formatHHMM (t : Nat) : String := pad2 (t / 3600) ++ ":" ++ pad2 (t % 3600 / 60)

/-- The fields of the `Booking` model row consumed by the availability path:
its date, its start time and its `cancelled` flag. -/
structure Booking where
  date : Nat
  time : Nat
  cancelled : Bool
deriving DecidableEq

/-- Insertion step of a stable sort by start time (`order_by('time')`). -/
def insertByTime (b : Booking) : List Booking → List Booking
  | [] => [b]
  | c :: rest => if b.time ≤ c.time then b :: c :: rest else c :: insertByTime b rest

/-- Stable sort by start time, modelling the query's `order_by('time')`. -/
def orderByTime : List Booking → List Booking
  | [] => []
  | b :: rest => insertByTime b (orderByTime rest)

/-- `get_booked_time_slots` from `utils.py`: `Booking.objects.filter(date=day)
.order_by('time')`, then each booking is turned into the pair of its start
time and its end including the break of the service being booked.  Note the
filter is on the date alone — the `cancelled` flag is not consulted. -/
def get_booked_time_slots (day : Nat) (bookings : List Booking)
    (duration_with_break : Nat) : List (Nat × Nat) :=
  (orderByTime (bookings.filter (fun b => b.date == day))).map
    (fun b => (b.time, addTime b.time duration_with_break))

/-- The pair appended for a free candidate: the `%H:%M` value and the
`"{} - {}"` label, whose displayed end uses the duration WITHOUT break. -/
def slotEntry (cur dwb : Nat) : String × String :=
  (formatHHMM cur, formatHHMM cur ++ " - " ++ formatHHMM (addTime cur dwb))

/-- The per-interval conflict test of lines 98–99 of `utils.py`:
`(booked_slot[0] <= cur_time < booked_slot[1]) or
 (booked_slot[0] < cur_time_with_duration <= booked_slot[1])`. -/
def conflictsWith (b : Nat × Nat) (cur curW : Nat) : Bool :=
  (decide (b.1 ≤ cur) && decide (cur < b.2)) ||
    (decide (b.1 < curW) && decide (curW ≤ b.2))

/-- The `for booked_slot in booked_slots` scan with early `break`:
an existential scan over the list. -/
def hasConflict (booked : List (Nat × Nat)) (cur curW : Nat) : Bool :=
  booked.any (fun b => conflictsWith b cur curW)

/-- The `while` guard of line 94: `(combine(day, cur_time) +
duration_without_break).time() <= closing_hour`. -/
def loopCond (closing dwb cur : Nat) : Bool := decide (addTime cur dwb ≤ closing)

/-- The `while` loop of lines 93–115, fuel-indexed.  `some l` is a genuine
terminated run producing `l`; `none` means the fuel ran out mid-loop. -/
def availLoop (closing dwb dwB interval : Nat) (booked : List (Nat × Nat)) :
    Nat → Nat → Option (List (String × String))
  | 0, cur => if loopCond closing dwb cur then none else some []
  | Nat.succ fuel, cur =>
    if loopCond closing dwb cur then
      match availLoop closing dwb dwB interval booked fuel (addTime cur interval) with
      | none => none
      | some rest =>
        some (if hasConflict booked cur (addTime cur dwB) then rest
              else slotEntry cur dwb :: rest)
    else some []

/-- `get_available_booking_slots` from `utils.py`, with the external lookups
(opening/closing hour, service durations, booked slots) passed in as
arguments, exactly as the spec's `compute` contract does.  `opening_hour` /
`closing_hour` are `none` when the salon record holds no time for that
weekday. -/
def get_available_booking_slots (fuel : Nat) (opening_hour closing_hour : Option Nat)
    (duration_without_break duration_with_break interval : Nat)
    (booked : List (Nat × Nat)) : Option (List (String × String)) :=
  match opening_hour, closing_hour with
  | some o, some c =>
    match availLoop c duration_without_break duration_with_break interval booked fuel o with
    | none => none
    | some l => if l.isEmpty then some [("", "No free slots")] else some l
  | _, _ => some [("", "Closed")]

/-- The candidate start times the loop generates (the search grid actually
scanned, cut off where the guard first fails), fuel-indexed alongside
`availLoop`. -/
def grid (closing dwb interval : Nat) : Nat → Nat → List Nat
  | 0, _ => []
  | Nat.succ fuel, cur =>
    if loopCond closing dwb cur then
      cur :: grid closing dwb interval fuel (addTime cur interval)
    else []

/-! ## Basic arithmetic facts about the time model -/

lemma secondsPerDay_pos : 0 < secondsPerDay := by decide

lemma addTime_lt (t d : Nat) : addTime t d < secondsPerDay :=
  Nat.mod_lt _ secondsPerDay_pos

lemma addTime_eq_of_lt {t d : Nat} (h : t + d < secondsPerDay) : addTime t d = t + d :=
  Nat.mod_eq_of_lt h

/-! ## The loop result as a filtered search grid -/

/-- A terminated run of the scan loop returns exactly the conflict-free
candidates of the search grid, each rendered by `slotEntry`; conflicting
candidates are the ones dropped. -/
lemma availLoop_eq_filterMap (c dwb dwB i : Nat) (booked : List (Nat × Nat)) :
    ∀ fuel cur l, availLoop c dwb dwB i booked fuel cur = some l →
      l = (grid c dwb i fuel cur).filterMap
        (fun t => if hasConflict booked t (addTime t dwB) = true then none
                  else some (slotEntry t dwb)) := by
  intro fuel
  induction fuel with
  | zero =>
    intro cur l h
    by_cases hcond : loopCond c dwb cur = true
    · simp [availLoop, hcond] at h
    · rw [Bool.not_eq_true] at hcond
      simp [availLoop, hcond] at h
      simp [grid, ← h]
  | succ n ih =>
    intro cur l h
    by_cases hcond : loopCond c dwb cur = true
    · simp only [availLoop, hcond, if_true] at h
      cases hrec : availLoop c dwb dwB i booked n (addTime cur i) with
      | none => rw [hrec] at h; simp at h
      | some rest =>
        rw [hrec] at h
        simp only [Option.some.injEq] at h
        have hrest := ih (addTime cur i) rest hrec
        by_cases hconf : hasConflict booked cur (addTime cur dwB) = true
        · simp only [hconf, if_true] at h
          simp [grid, hcond, List.filterMap_cons, hconf, ← h, hrest]
        · rw [Bool.not_eq_true] at hconf
          simp only [hconf] at h
          simp [grid, hcond, List.filterMap_cons, hconf, ← h, hrest]
    · rw [Bool.not_eq_true] at hcond
      simp [availLoop, hcond] at h
      simp [grid, hcond, ← h]

/-- Every candidate the loop generates satisfies the guard: its end computed
with the duration WITHOUT break (wrapped mod 24h) is at most the closing
time. -/
lemma grid_mem_cond (c dwb i : Nat) :
    ∀ fuel cur t, t ∈ grid c dwb i fuel cur → addTime t dwb ≤ c := by
  intro fuel
  induction fuel with
  | zero => intro cur t ht; simp [grid] at ht
  | succ n ih =>
    intro cur t ht
    by_cases hcond : loopCond c dwb cur = true
    · simp only [grid, hcond, if_true, List.mem_cons] at ht
      rcases ht with rfl | ht
      · simpa [loopCond] using hcond
      · exact ih (addTime cur i) t ht
    · rw [Bool.not_eq_true] at hcond
      simp [grid, hcond] at ht

/-! ## Behaviour of the loop when the arithmetic never wraps past midnight

The guard combines the candidate time with the day, adds the duration and
takes the time-of-day part back, so it silently wraps modulo 24h.  As long
as `closing + interval + duration_without_break` stays below 24h, no
reachable state wraps, and the loop behaves like plain arithmetic. -/

/-- With fuel exceeding `(closing + interval - cur) / interval`, the loop
terminates (returns `some`).  The invariant `cur ≤ closing + interval` holds
for every reachable state. -/
lemma availLoop_total (c dwb dwB i : Nat) (booked : List (Nat × Nat))
    (h2 : c + i + dwb < secondsPerDay) :
    ∀ fuel cur, cur ≤ c + i → c + i - cur < fuel * i →
      ∃ l, availLoop c dwb dwB i booked fuel cur = some l := by
  intro fuel
  induction fuel with
  | zero =>
    intro cur hc hf
    rw [Nat.zero_mul] at hf
    exact absurd hf (Nat.not_lt_zero _)
  | succ n ih =>
    intro cur hc hf
    by_cases hcond : loopCond c dwb cur = true
    · have hnw : cur + dwb < secondsPerDay := by omega
      have hcond2 : cur + dwb ≤ c := by
        have h := hcond
        rw [loopCond, addTime_eq_of_lt hnw, decide_eq_true_eq] at h
        exact h
      have hcur : cur ≤ c := by omega
      have hstep : addTime cur i = cur + i := addTime_eq_of_lt (by omega)
      have hfn : c + i - (cur + i) < n * i := by
        rw [Nat.succ_mul] at hf
        have hii : i ≤ c + i - cur := by omega
        omega
      obtain ⟨l, hl⟩ := ih (cur + i) (by omega) hfn
      refine ⟨if hasConflict booked cur (addTime cur dwB) then l
              else slotEntry cur dwb :: l, ?_⟩
      rw [availLoop, if_pos hcond, hstep, hl]
    · rw [Bool.not_eq_true] at hcond
      exact ⟨[], by rw [availLoop, hcond]; rfl⟩

/-- Every grid element lies at or after the scan position it is generated
from, under the no-wrap hypotheses. -/
lemma grid_lower (c dwb i : Nat) (h2 : c + i + dwb < secondsPerDay) :
    ∀ fuel cur, cur ≤ c + i → ∀ t, t ∈ grid c dwb i fuel cur → cur ≤ t := by
  intro fuel
  induction fuel with
  | zero => intro cur _ t ht; simp [grid] at ht
  | succ n ih =>
    intro cur hc t ht
    by_cases hcond : loopCond c dwb cur = true
    · have hnw : cur + dwb < secondsPerDay := by omega
      have hcond2 : cur + dwb ≤ c := by
        have h := hcond
        rw [loopCond, addTime_eq_of_lt hnw, decide_eq_true_eq] at h
        exact h
      have hstep : addTime cur i = cur + i := addTime_eq_of_lt (by omega)
      simp only [grid, hcond, if_true, hstep, List.mem_cons] at ht
      rcases ht with rfl | ht
      · exact Nat.le_refl _
      · have := ih (cur + i) (by omega) t ht
        omega
    · rw [Bool.not_eq_true] at hcond
      simp [grid, hcond] at ht

/-- Under the no-wrap hypotheses the generated grid is strictly
increasing. -/
lemma grid_pairwise (c dwb i : Nat) (h2 : c + i + dwb < secondsPerDay) (h3 : 1 ≤ i) :
    ∀ fuel cur, cur ≤ c + i → (grid c dwb i fuel cur).Pairwise (fun a b => a < b) := by
  intro fuel
  induction fuel with
  | zero => intro cur _; simp [grid]
  | succ n ih =>
    intro cur hc
    by_cases hcond : loopCond c dwb cur = true
    · have hnw : cur + dwb < secondsPerDay := by omega
      have hcond2 : cur + dwb ≤ c := by
        have h := hcond
        rw [loopCond, addTime_eq_of_lt hnw, decide_eq_true_eq] at h
        exact h
      have hstep : addTime cur i = cur + i := addTime_eq_of_lt (by omega)
      simp only [grid, hcond, if_true, hstep, List.pairwise_cons]
      constructor
      · intro t ht
        have := grid_lower c dwb i h2 n (cur + i) (by omega) t ht
        omega
      · exact ih (cur + i) (by omega)
    · rw [Bool.not_eq_true] at hcond
      simp [grid, hcond]

/-- Under the no-wrap hypotheses, the grid of a sufficiently fuelled run
contains the point `cur + k * interval` exactly when that candidate's
duration-without-break end fits before the closing time (inclusive). -/
lemma grid_mem_iff (c dwb i : Nat) (h2 : c + i + dwb < secondsPerDay) (h3 : 1 ≤ i) :
    ∀ fuel k cur, cur ≤ c + i →
      (cur + k * i ∈ grid c dwb i fuel cur ↔ k < fuel ∧ cur + k * i + dwb ≤ c) := by
  intro fuel
  induction fuel with
  | zero => intro k cur _; simp [grid]
  | succ n ih =>
    intro k cur hc
    by_cases hcond : loopCond c dwb cur = true
    · have hnw : cur + dwb < secondsPerDay := by omega
      have hcond2 : cur + dwb ≤ c := by
        have h := hcond
        rw [loopCond, addTime_eq_of_lt hnw, decide_eq_true_eq] at h
        exact h
      have hstep : addTime cur i = cur + i := addTime_eq_of_lt (by omega)
      simp only [grid, hcond, if_true, hstep, List.mem_cons]
      cases k with
      | zero => simp; omega
      | succ m =>
        have hne : ¬ (cur + (m + 1) * i = cur) := by
          have : 1 * i ≤ (m + 1) * i := Nat.mul_le_mul_right i (by omega)
          omega
        have harr : cur + (m + 1) * i = (cur + i) + m * i := by
          rw [Nat.succ_mul]; omega
        rw [harr]
        have hih := ih m (cur + i) (by omega)
        constructor
        · intro hmem
          rcases hmem with heq | hmem
          · exact absurd (by omega : cur + (m + 1) * i = cur) hne
          · have := hih.mp hmem
            constructor
            · omega
            · have h4 := this.2; omega
        · intro hk
          right
          refine hih.mpr ⟨by omega, by omega⟩
    · rw [Bool.not_eq_true] at hcond
      have hnw : cur + dwb < secondsPerDay := by omega
      have hcond2 : ¬ (cur + dwb ≤ c) := by
        have h := hcond
        rw [loopCond, addTime_eq_of_lt hnw] at h
        simpa using h
      simp only [grid, hcond, if_neg, Bool.false_eq_true, List.not_mem_nil]
      constructor
      · intro h; simp at h
      · intro h
        have : cur + dwb ≤ c := by
          have hk := h.2
          have : (0:Nat) ≤ k * i := Nat.zero_le _
          omega
        exact absurd this hcond2

/-! ## The grid as an arithmetic progression modulo 24h -/

/-- Every generated candidate is `start + k * interval` reduced modulo 24h,
for some number of advance steps `k`. -/
lemma grid_mem_mod (c dwb i : Nat) :
    ∀ fuel cur, cur < secondsPerDay → ∀ t, t ∈ grid c dwb i fuel cur →
      ∃ k, t = (cur + k * i) % secondsPerDay := by
  intro fuel
  induction fuel with
  | zero => intro cur _ t ht; simp [grid] at ht
  | succ n ih =>
    intro cur hcur t ht
    by_cases hcond : loopCond c dwb cur = true
    · simp only [grid, hcond, if_true, List.mem_cons] at ht
      rcases ht with rfl | ht
      · exact ⟨0, by simp [Nat.mod_eq_of_lt hcur]⟩
      · obtain ⟨k, hk⟩ := ih (addTime cur i) (addTime_lt cur i) t ht
        refine ⟨k + 1, ?_⟩
        rw [hk, addTime, Nat.mod_add_mod]
        congr 1
        rw [Nat.succ_mul]
        omega
    · rw [Bool.not_eq_true] at hcond
      simp [grid, hcond] at ht

/-! ## Generic list fact used to massage the loop characterisation -/

lemma filterMap_if_eq_map_filter {α β : Type} (p : α → Bool) (f : α → β) :
    ∀ l : List α,
      l.filterMap (fun t => if p t = true then none else some (f t))
        = (l.filter (fun t => ! p t)).map f := by
  intro l
  induction l with
  | nil => rfl
  | cons a as ih =>
    by_cases hp : p a = true
    · simp [List.filterMap_cons, List.filter_cons, hp, ih]
    · rw [Bool.not_eq_true] at hp
      simp [List.filterMap_cons, List.filter_cons, hp, ih]

/-! ## Order-independence of the conflict scan -/

/-- The conflict scan is an existential over the booked list, so any
permutation of the list gives the same verdict. -/
lemma hasConflict_perm {booked1 booked2 : List (Nat × Nat)}
    (hp : booked1.Perm booked2) (cur curW : Nat) :
    hasConflict booked1 cur curW = hasConflict booked2 cur curW := by
  have hiff : hasConflict booked1 cur curW = true ↔ hasConflict booked2 cur curW = true := by
    simp only [hasConflict, List.any_eq_true]
    constructor
    · rintro ⟨b, hb, hfb⟩; exact ⟨b, hp.mem_iff.mp hb, hfb⟩
    · rintro ⟨b, hb, hfb⟩; exact ⟨b, hp.mem_iff.mpr hb, hfb⟩
  cases h1 : hasConflict booked1 cur curW <;> cases h2 : hasConflict booked2 cur curW <;>
    simp_all

/-- The whole scan loop is invariant under permuting the booked list. -/
lemma availLoop_perm (c dwb dwB i : Nat) {booked1 booked2 : List (Nat × Nat)}
    (hp : booked1.Perm booked2) :
    ∀ fuel cur, availLoop c dwb dwB i booked1 fuel cur
      = availLoop c dwb dwB i booked2 fuel cur := by
  intro fuel
  induction fuel with
  | zero => intro cur; rfl
  | succ n ih =>
    intro cur
    rw [availLoop, availLoop, ih (addTime cur i), hasConflict_perm hp]

/-! ## Non-termination when the closing time sits at the end of the day -/

/-- The Python function never returns on this input: for every fuel the
embedded loop is still running.  (`availLoop … = none` for all fuels is
exactly "the while loop never exits".) -/
def divergesFor (opening_hour closing_hour : Option Nat)
    (dwb dwB interval : Nat) (booked : List (Nat × Nat)) : Prop :=
  ∀ fuel, get_available_booking_slots fuel opening_hour closing_hour
    dwb dwB interval booked = none

/-- When the closing time is the last representable second of the day, the
wrapped guard `(cur + dwb) % 86400 ≤ 86399` holds at every state, so no
amount of fuel makes the loop exit. -/
lemma availLoop_closing_top (dwb dwB i : Nat) (booked : List (Nat × Nat)) :
    ∀ fuel cur, availLoop (secondsPerDay - 1) dwb dwB i booked fuel cur = none := by
  have hcond : ∀ cur, loopCond (secondsPerDay - 1) dwb cur = true := by
    intro cur
    have := addTime_lt cur dwb
    rw [loopCond, decide_eq_true_eq]
    omega
  intro fuel
  induction fuel with
  | zero => intro cur; rw [availLoop, if_pos (hcond cur)]
  | succ n ih => intro cur; rw [availLoop, if_pos (hcond cur), ih (addTime cur i)]

/-! ## Claim theorems -/

/-- C2: for opening 08:00 (28800 s), closing 10:00 (36000 s),
duration 15 min without / 30 min with break, search interval 15 min and the
single booked interval (08:45, 09:15) = (31500, 33300), the computation
returns exactly the five slots 08:00, 08:15, 09:15, 09:30, 09:45 with their
"HH:MM - HH:MM" labels; the 08:30 (30600 s) candidate is excluded because
its break-inclusive end 09:00 (32400 s) satisfies 31500 < 32400 ≤ 33300. -/
theorem scenario_d_exact_slots :
    get_available_booking_slots 20 (some 28800) (some 36000) 900 1800 900 [(31500, 33300)]
      = some [("08:00", "08:00 - 08:15"), ("08:15", "08:15 - 08:30"),
              ("09:15", "09:15 - 09:30"), ("09:30", "09:30 - 09:45"),
              ("09:45", "09:45 - 10:00")]
    ∧ hasConflict [(31500, 33300)] 30600 (addTime 30600 1800) = true
    ∧ 31500 < addTime 30600 1800 ∧ addTime 30600 1800 ≤ 33300 := by
  decide

/-- C3: whenever the opening hour or the closing hour is absent, the
function short-circuits and returns exactly `[("", "Closed")]`, for every
fuel (so before any loop iteration), every duration pair and every booked
list. -/
theorem closed_day_short_circuit (fuel : Nat) (opening_hour closing_hour : Option Nat)
    (dwb dwB i : Nat) (booked : List (Nat × Nat))
    (h : opening_hour = none ∨ closing_hour = none) :
    get_available_booking_slots fuel opening_hour closing_hour dwb dwB i booked
      = some [("", "Closed")] := by
  rcases h with h | h
  · subst h; cases closing_hour <;> rfl
  · subst h; cases opening_hour <;> rfl

/-- Witness for C3 at a concrete input: opening absent, closing 09:00. -/
theorem closed_day_short_circuit_witness :
    get_available_booking_slots 3 none (some 32400) 900 1800 900 []
      = some [("", "Closed")] :=
  closed_day_short_circuit 3 none (some 32400) 900 1800 900 [] (Or.inl rfl)

/-- C4 counterexample: the empty-scan sentinel produced by the code is
`("", "No free slots")`, not the `("", "No available slots")` the claim
states.  Input: opening 08:00, closing 09:00, duration 120 min without /
135 min with break, no bookings (the spec's own Scenario A). -/
theorem no_available_slots_label_counterexample :
    get_available_booking_slots 5 (some 28800) (some 32400) 7200 8100 900 []
        ≠ some [("", "No available slots")]
    ∧ get_available_booking_slots 5 (some 28800) (some 32400) 7200 8100 900 []
        = some [("", "No free slots")] := by
  decide

/-- C4 amended: whenever the scan loop terminates having collected no free
candidate, the function returns exactly `[("", "No free slots")]`; in
particular, whenever the first candidate already fails the guard without
wrapping (`closing < opening + duration_without_break < 24h`, which covers
every case where the duration exceeds `closing - opening`), this happens
for every fuel. -/
theorem empty_scan_sentinel (fuel o c dwb dwB i : Nat) (booked : List (Nat × Nat)) :
    (availLoop c dwb dwB i booked fuel o = some [] →
      get_available_booking_slots fuel (some o) (some c) dwb dwB i booked
        = some [("", "No free slots")])
    ∧ (o + dwb < secondsPerDay → c < o + dwb →
      get_available_booking_slots fuel (some o) (some c) dwb dwB i booked
        = some [("", "No free slots")]) := by
  constructor
  · intro h
    simp [get_available_booking_slots, h]
  · intro h1 h2
    have hcond : loopCond c dwb o = false := by
      rw [loopCond, addTime_eq_of_lt h1, decide_eq_false_iff_not]
      omega
    have hloop : availLoop c dwb dwB i booked fuel o = some [] := by
      cases fuel <;> rw [availLoop, hcond] <;> rfl
    simp [get_available_booking_slots, hloop]

/-- Witness for C4 (amended) at Scenario A: opening 08:00, closing 09:00,
duration 120/135 min, no bookings, fuel 0. -/
theorem empty_scan_sentinel_witness :
    get_available_booking_slots 0 (some 28800) (some 32400) 7200 8100 900 []
      = some [("", "No free slots")] :=
  (empty_scan_sentinel 0 28800 32400 7200 8100 900 []).2 (by decide) (by decide)

/-- C5 counterexample: with opening 08:00 and closing 23:59:59 (86399 s) —
both present, opening ≤ closing, non-negative durations, positive search
interval — the wrapped guard `(cur + 900) % 86400 ≤ 86399` is true at every
state, so the `while` loop never exits: the Python call never returns. -/
theorem availability_divergence_counterexample :
    divergesFor (some 28800) (some 86399) 900 1800 900 [] := by
  intro fuel
  have h := availLoop_closing_top 900 1800 900 [] fuel 28800
  norm_num [secondsPerDay] at h
  simp [get_available_booking_slots, h]

/-- C5 amended: when additionally `closing + interval +
duration_without_break < 24h` (so the combine-add-extract arithmetic never
wraps at any reachable state), the loop terminates within
`(closing + interval - opening) / interval + 1` iterations — a number
proportional to `(closing - opening) / interval` — and the function yields
a result list. -/
theorem availability_terminates (o c dwb dwB i : Nat) (booked : List (Nat × Nat))
    (h1 : o ≤ c) (h2 : c + i + dwb < secondsPerDay) (h3 : 1 ≤ i) :
    ∃ l, get_available_booking_slots ((c + i - o) / i + 1) (some o) (some c)
      dwb dwB i booked = some l := by
  have hfuel : c + i - o < ((c + i - o) / i + 1) * i := by
    have hdm := Nat.div_add_mod (c + i - o) i
    have hm : (c + i - o) % i < i := Nat.mod_lt _ (by omega)
    rw [Nat.succ_mul, Nat.mul_comm]
    omega
  obtain ⟨l, hl⟩ := availLoop_total c dwb dwB i booked h2 ((c + i - o) / i + 1) o
    (by omega) hfuel
  refine ⟨if l.isEmpty then [("", "No free slots")] else l, ?_⟩
  simp only [get_available_booking_slots, hl]
  split <;> rfl

/-- Witness for C5 (amended): opening 08:00, closing 09:00, 15 min
durations, 15 min interval; the computed fuel is (32400+900-28800)/900+1 =
6 and the run indeed completes. -/
theorem availability_terminates_witness :
    ∃ l, get_available_booking_slots 6 (some 28800) (some 32400)
      900 1800 900 [] = some l :=
  availability_terminates 28800 32400 900 1800 900 [] (by decide) (by decide) (by decide)

/-- C6 (code bug): `get_booked_time_slots` filters the day's bookings by
date alone — the `cancelled` flag is never consulted — so a booking with
`cancelled = true` still contributes its `(start, start+break-inclusive
duration)` interval, and that interval still blocks candidate slots.  Here
a single CANCELLED booking at 08:45 (31500 s) on the requested day yields
the interval (31500, 33300) and the availability scan for 08:00–10:00
excludes the 08:30, 08:45 and 09:00 candidates because of it. -/
theorem cancelled_booking_still_blocks :
    get_booked_time_slots 7 ([⟨7, 31500, true⟩] : List Booking) 1800 = [(31500, 33300)]
    ∧ get_available_booking_slots 20 (some 28800) (some 36000) 900 1800 900
        (get_booked_time_slots 7 ([⟨7, 31500, true⟩] : List Booking) 1800)
      = some [("08:00", "08:00 - 08:15"), ("08:15", "08:15 - 08:30"),
              ("09:15", "09:15 - 09:30"), ("09:30", "09:30 - 09:45"),
              ("09:45", "09:45 - 10:00")] := by
  decide

/-- C1 counterexample: the no-overlap consequence fails for an arbitrary
booked-interval list.  With opening 08:00, closing 10:00, durations 15/30
min, and the single booked interval (08:10, 08:20) = (29400, 30000) —
shorter than `duration_with_break` — the 08:00 slot passes the conflict
test and is returned, yet its occupied range [28800, 30600) overlaps
(29400, 30000): neither `28800 + 1800 ≤ 29400` nor `30000 ≤ 28800`. -/
theorem slot_overlap_counterexample :
    (("08:00", "08:00 - 08:15")
        ∈ (get_available_booking_slots 20 (some 28800) (some 36000) 900 1800 900
            [(29400, 30000)]).getD [])
    ∧ ¬ (28800 + 1800 ≤ 29400 ∨ 30000 ≤ 28800) := by
  decide

/-- C1 amended: (1) a terminated scan returns exactly the grid candidates
whose conflict test fails, i.e. a candidate is excluded iff the test fires;
(2) the test fires iff some booked interval `(bstart, bend)` satisfies
`bstart ≤ cur < bend` or `bstart < w ≤ bend`, where `w` is the
break-inclusive end reduced mod 24h; (3) the no-overlap consequence holds
for booked intervals at least `duration_with_break` long (as every interval
produced by `get_booked_time_slots` is), within the day; (4) a candidate
starting exactly at an interval's end, or ending (break included) exactly
at an interval's start, is not excluded by that interval, provided
`duration_with_break > 0` and the candidate's range stays within the
day. -/
theorem conflict_exclusion_characterization (c dwb dwB i : Nat)
    (booked : List (Nat × Nat)) (fuel cur : Nat) (l : List (String × String))
    (h : availLoop c dwb dwB i booked fuel cur = some l) :
    (l = (grid c dwb i fuel cur).filterMap
        (fun t => if hasConflict booked t (addTime t dwB) = true then none
                  else some (slotEntry t dwb)))
    ∧ (∀ t w, hasConflict booked t w = true ↔
        ∃ b ∈ booked, (b.1 ≤ t ∧ t < b.2) ∨ (b.1 < w ∧ w ≤ b.2))
    ∧ (∀ t b, b ∈ booked → hasConflict booked t (addTime t dwB) = false →
        t + dwB < secondsPerDay → b.1 + dwB ≤ b.2 → t + dwB ≤ b.1 ∨ b.2 ≤ t)
    ∧ (∀ t b1 b2, t + dwB < secondsPerDay → 0 < dwB →
        (b2 = t → conflictsWith (b1, b2) t (addTime t dwB) = false)
        ∧ (b1 = t + dwB → conflictsWith (b1, b2) t (addTime t dwB) = false)) := by
  refine ⟨availLoop_eq_filterMap c dwb dwB i booked fuel cur l h, ?_, ?_, ?_⟩
  · intro t w
    simp [hasConflict, conflictsWith, List.any_eq_true]
  · intro t b hb hc hnw hlen
    have hall : ∀ b2 ∈ booked, conflictsWith b2 t (addTime t dwB) = false := by
      simpa [hasConflict, List.any_eq_false] using hc
    have hb2 := hall b hb
    rw [conflictsWith, addTime_eq_of_lt hnw] at hb2
    simp only [Bool.or_eq_false_iff, Bool.and_eq_false_iff, decide_eq_false_iff_not,
      Nat.not_le, Nat.not_lt] at hb2
    omega
  · intro t b1 b2 hnw hpos
    constructor <;> rintro rfl <;>
      (rw [conflictsWith, addTime_eq_of_lt hnw]
       simp only [Bool.or_eq_false_iff, Bool.and_eq_false_iff, decide_eq_false_iff_not,
         Nat.not_le, Nat.not_lt]
       omega)

/-- Witness for C1 (amended) at Scenario D: a genuinely terminated run with
one booked interval, instantiating the characterisation. -/
theorem conflict_exclusion_characterization_witness :
    ([("08:00", "08:00 - 08:15"), ("08:15", "08:15 - 08:30"),
      ("09:15", "09:15 - 09:30"), ("09:30", "09:30 - 09:45"),
      ("09:45", "09:45 - 10:00")]
        = (grid 36000 900 900 20 28800).filterMap
            (fun t => if hasConflict [(31500, 33300)] t (addTime t 1800) = true then none
                      else some (slotEntry t 900)))
    ∧ (∀ t w, hasConflict [(31500, 33300)] t w = true ↔
        ∃ b ∈ [(31500, 33300)], (b.1 ≤ t ∧ t < b.2) ∨ (b.1 < w ∧ w ≤ b.2))
    ∧ (∀ t b, b ∈ [(31500, 33300)] → hasConflict [(31500, 33300)] t (addTime t 1800) = false →
        t + 1800 < secondsPerDay → b.1 + 1800 ≤ b.2 → t + 1800 ≤ b.1 ∨ b.2 ≤ t)
    ∧ (∀ t b1 b2, t + 1800 < secondsPerDay → 0 < 1800 →
        (b2 = t → conflictsWith (b1, b2) t (addTime t 1800) = false)
        ∧ (b1 = t + 1800 → conflictsWith (b1, b2) t (addTime t 1800) = false)) :=
  conflict_exclusion_characterization 36000 900 1800 900 [(31500, 33300)] 20 28800
    [("08:00", "08:00 - 08:15"), ("08:15", "08:15 - 08:30"),
     ("09:15", "09:15 - 09:30"), ("09:30", "09:30 - 09:45"),
     ("09:45", "09:45 - 10:00")] (by decide)

/-- C7: (1) every generated grid candidate satisfies the guard — its end
computed with the duration WITHOUT break is at most the closing time,
inclusively; (2) under no-wrap hypotheses a candidate `opening + k *
interval` is generated (for sufficient fuel) exactly when `opening + k *
interval + duration_without_break ≤ closing`; (3) Scenario B: opening
08:00, closing 09:00, durations 15/30 min, no bookings — exactly the four
slots 08:00…08:45, the last labelled "08:45 - 09:00" and ending exactly at
the closing time. -/
theorem grid_bound_inclusive :
    (∀ c dwb i fuel cur t, t ∈ grid c dwb i fuel cur → addTime t dwb ≤ c)
    ∧ (∀ c dwb i fuel k o, c + i + dwb < secondsPerDay → 1 ≤ i → o ≤ c →
        (o + k * i ∈ grid c dwb i fuel o ↔ k < fuel ∧ o + k * i + dwb ≤ c))
    ∧ get_available_booking_slots 10 (some 28800) (some 32400) 900 1800 900 []
        = some [("08:00", "08:00 - 08:15"), ("08:15", "08:15 - 08:30"),
                ("08:30", "08:30 - 08:45"), ("08:45", "08:45 - 09:00")] := by
  refine ⟨?_, ?_, by decide⟩
  · intro c dwb i fuel cur t ht
    exact grid_mem_cond c dwb i fuel cur t ht
  · intro c dwb i fuel k o h2 h3 h1
    exact grid_mem_iff c dwb i h2 h3 fuel k o (by omega)

/-- Witness for C7 at Scenario B's numbers: the 08:30 candidate (two steps
from opening) is on the grid iff its end fits, and the guard holds for the
generated 08:45 candidate. -/
theorem grid_bound_inclusive_witness :
    addTime 31500 900 ≤ 32400
    ∧ ((28800 + 2 * 900 ∈ grid 32400 900 900 10 28800) ↔
        (2 < 10 ∧ 28800 + 2 * 900 + 900 ≤ 32400))
    ∧ get_available_booking_slots 10 (some 28800) (some 32400) 900 1800 900 []
        = some [("08:00", "08:00 - 08:15"), ("08:15", "08:15 - 08:30"),
                ("08:30", "08:30 - 08:45"), ("08:45", "08:45 - 09:00")] :=
  ⟨grid_bound_inclusive.1 32400 900 900 10 28800 31500 (by decide),
   grid_bound_inclusive.2.1 32400 900 900 10 2 28800 (by decide) (by decide) (by decide),
   grid_bound_inclusive.2.2⟩

/-- C8 counterexample: an input with both hours present, opening ≤ closing
and positive durations on which the returned list is NOT ascending by start
time.  Opening 23:30 (84600 s), closing 23:30:50 (84650 s), duration 50
min without / 65 min with break, interval 30 min: the first returned slot
starts at 23:30 (84600 s) and the second at 00:00 (0 s) — the wrapped
advance jumps past midnight, so the successor slot starts EARLIER in the
day than its predecessor. -/
theorem slots_order_counterexample :
    ((get_available_booking_slots 60 (some 84600) (some 84650) 3000 3900 1800 []).getD
        []).take 2
      = [slotEntry 84600 3000, slotEntry 0 3000]
    ∧ slotEntry 84600 3000 = ("23:30", "23:30 - 00:20")
    ∧ slotEntry 0 3000 = ("00:00", "00:00 - 00:50")
    ∧ 0 < 84600 := by
  decide

/-- C8 amended: under the no-wrap hypotheses (`closing + interval +
duration_without_break < 24h`, `opening ≤ closing`, positive interval) the
returned slots of a terminated scan are the slot entries of a strictly
increasing sequence of start times, each on the grid with its guard and
conflict test satisfied. -/
theorem slots_sorted_ascending (o c dwb dwB i fuel : Nat) (booked : List (Nat × Nat))
    (l : List (String × String)) (h1 : o ≤ c) (h2 : c + i + dwb < secondsPerDay)
    (h3 : 1 ≤ i) (h : availLoop c dwb dwB i booked fuel o = some l) :
    ∃ ts : List Nat, ts.Pairwise (fun a b => a < b)
      ∧ l = ts.map (fun t => slotEntry t dwb)
      ∧ ∀ t ∈ ts, addTime t dwb ≤ c ∧ hasConflict booked t (addTime t dwB) = false := by
  refine ⟨(grid c dwb i fuel o).filter
      (fun t => ! hasConflict booked t (addTime t dwB)), ?_, ?_, ?_⟩
  · exact List.Pairwise.sublist (List.filter_sublist _)
      (grid_pairwise c dwb i h2 h3 fuel o (by omega))
  · rw [availLoop_eq_filterMap c dwb dwB i booked fuel o l h, filterMap_if_eq_map_filter]
  · intro t ht
    rw [List.mem_filter] at ht
    refine ⟨grid_mem_cond c dwb i fuel o t ht.1, ?_⟩
    have hb := ht.2
    rwa [Bool.not_eq_true'] at hb

/-- Witness for C8 (amended) at Scenario B: the four returned slots come
from a strictly increasing list of start times. -/
theorem slots_sorted_ascending_witness :
    ∃ ts : List Nat, ts.Pairwise (fun a b => a < b)
      ∧ [("08:00", "08:00 - 08:15"), ("08:15", "08:15 - 08:30"),
         ("08:30", "08:30 - 08:45"), ("08:45", "08:45 - 09:00")]
          = ts.map (fun t => slotEntry t 900)
      ∧ ∀ t ∈ ts, addTime t 900 ≤ 32400 ∧ hasConflict [] t (addTime t 1800) = false :=
  slots_sorted_ascending 28800 32400 900 1800 900 10 []
    [("08:00", "08:00 - 08:15"), ("08:15", "08:15 - 08:30"),
     ("08:30", "08:30 - 08:45"), ("08:45", "08:45 - 09:00")]
    (by decide) (by decide) (by decide) (by decide)

/-- C9: every genuine returned slot (not a sentinel) is the entry of a
start time equal to `opening + k * interval` reduced mod 24h for some
number of advance steps `k` — the grid starts at the opening time and
advances by the fixed search interval. -/
theorem slots_on_search_grid (fuel : Nat) (opening_hour closing_hour : Option Nat)
    (dwb dwB i : Nat) (booked : List (Nat × Nat)) (l : List (String × String))
    (e : String × String)
    (h : get_available_booking_slots fuel opening_hour closing_hour dwb dwB i booked
          = some l)
    (he : e ∈ l) (hne1 : e ≠ ("", "Closed")) (hne2 : e ≠ ("", "No free slots"))
    (hop : ∀ x, opening_hour = some x → x < secondsPerDay) :
    ∃ o t k, opening_hour = some o ∧ e = slotEntry t dwb
      ∧ t = (o + k * i) % secondsPerDay := by
  cases opening_hour with
  | none =>
    cases closing_hour <;>
      (simp only [get_available_booking_slots, Option.some.injEq] at h
       subst h
       simp only [List.mem_singleton] at he
       exact absurd he hne1)
  | some o =>
    cases closing_hour with
    | none =>
      simp only [get_available_booking_slots, Option.some.injEq] at h
      subst h
      simp only [List.mem_singleton] at he
      exact absurd he hne1
    | some c =>
      simp only [get_available_booking_slots] at h
      cases hrec : availLoop c dwb dwB i booked fuel o with
      | none => rw [hrec] at h; simp at h
      | some al =>
        rw [hrec] at h
        have h2 : (if al.isEmpty then some [("", "No free slots")] else some al)
            = some l := h
        by_cases hemp : al.isEmpty
        · rw [if_pos hemp, Option.some.injEq] at h2
          subst h2
          simp only [List.mem_singleton] at he
          exact absurd he hne2
        · rw [if_neg hemp, Option.some.injEq] at h2
          subst h2
          have hchar := availLoop_eq_filterMap c dwb dwB i booked fuel o al hrec
          rw [hchar, List.mem_filterMap] at he
          obtain ⟨t, htg, hte⟩ := he
          by_cases hconf : hasConflict booked t (addTime t dwB) = true
          · rw [if_pos hconf] at hte; cases hte
          · rw [if_neg hconf, Option.some.injEq] at hte
            obtain ⟨k, hk⟩ := grid_mem_mod c dwb i fuel o (hop o rfl) t htg
            exact ⟨o, t, k, rfl, hte.symm, hk⟩

/-- Witness for C9: the 08:15 slot of Scenario B lies on the
opening-plus-k-intervals grid. -/
theorem slots_on_search_grid_witness :
    ∃ o t k, (some 28800 : Option Nat) = some o
      ∧ ("08:15", "08:15 - 08:30") = slotEntry t 900
      ∧ t = (o + k * 900) % secondsPerDay :=
  slots_on_search_grid 10 (some 28800) (some 32400) 900 1800 900 []
    [("08:00", "08:00 - 08:15"), ("08:15", "08:15 - 08:30"),
     ("08:30", "08:30 - 08:45"), ("08:45", "08:45 - 09:00")]
    ("08:15", "08:15 - 08:30") (by decide) (by decide) (by decide) (by decide)
    (by intro x hx; cases hx; decide)

/-- C10: permuting the booked-interval list (all other inputs equal) leaves
the computed result unchanged — the conflict check is an existential scan,
so the result does not depend on the supplied order. -/
theorem booked_order_invariance (fuel : Nat) (opening_hour closing_hour : Option Nat)
    (dwb dwB i : Nat) (booked1 booked2 : List (Nat × Nat)) (hp : booked1.Perm booked2) :
    get_available_booking_slots fuel opening_hour closing_hour dwb dwB i booked1
      = get_available_booking_slots fuel opening_hour closing_hour dwb dwB i booked2 := by
  cases opening_hour with
  | none => cases closing_hour <;> rfl
  | some o =>
    cases closing_hour with
    | none => rfl
    | some c =>
      simp only [get_available_booking_slots]
      rw [availLoop_perm c dwb dwB i hp fuel o]

/-- Witness for C10: two orderings of the same two booked intervals give
identical output. -/
theorem booked_order_invariance_witness :
    get_available_booking_slots 20 (some 28800) (some 36000) 900 1800 900
        [(31500, 33300), (34200, 36000)]
      = get_available_booking_slots 20 (some 28800) (some 36000) 900 1800 900
        [(34200, 36000), (31500, 33300)] :=
  booked_order_invariance 20 (some 28800) (some 36000) 900 1800 900
    [(31500, 33300), (34200, 36000)] [(34200, 36000), (31500, 33300)]
    (List.Perm.swap (34200, 36000) (31500, 33300) [])

end DogGrooming
